import Mathlib

/-!
Shallow embedding of the `assert-graph-iso` crate (src/lib.rs, src/graph.rs,
src/gdl.rs) and proofs about its canonicalization algorithm.

The capability interface (`trait Graph` of src/graph.rs, identical copy in
src/lib.rs) is embedded as a structure of accessor functions over an abstract
node-identifier type `α` with decidable equality (the trait requires
`Hash + Eq`).  Labels, relationship types, property keys and property values
are embedded as `String`: the trait only requires them to be `Display`, and
the algorithm immediately renders every such value to a string with
`format!`, so the embedding works directly with the rendered strings.

Rust `HashMap`s are embedded as association lists; the places where the Rust
code iterates a `HashMap` in nondeterministic order all feed a `sort()`
before any output is produced, so the embedding fixes an arbitrary
(enumeration-derived) order and notes where that matters.

A Rust `panic!` / `.unwrap()` failure aborts the process; the embedding
models an aborted computation as `none : Option String`.
-/

namespace AssertGraphIso

/-- Embedding of `trait Graph` (src/graph.rs lines 10-45): the capability
interface a concrete graph representation must satisfy.  Each accessor
returns the finite sequence the corresponding Rust iterator would yield, in
enumeration order. -/
structure Graph (α : Type) where
  nodes : List α
  node_labels : α → List String
  node_properties : α → List (String × String)
  outgoing_relationships : α → List ((α × String) × List (String × String))
  incoming_relationships : α → List ((α × String) × List (String × String))

/-- Tail of `dedupRun`: drops elements equal to the last kept element
`prev`, keeping the first of each new run. -/
def dedupRunTail (prev : String) : List String → List String
  | [] => []
  | b :: l => if prev = b then dedupRunTail prev l else b :: dedupRunTail b l

/-- Embedding of Rust `Vec::dedup` (used at src/lib.rs lines 206 and 227):
removes consecutive repeated elements, keeping the first of each run. -/
def dedupRun : List String → List String
  | [] => []
  | a :: l => a :: dedupRunTail a l

/-- Kernel-computable decidability of the lexicographic order on `String`
(the builtin instance runs through `String.ltb`, whose well-founded
recursion the kernel cannot reduce). -/
def strLeDec : DecidableRel (α := String) (· ≤ ·) := fun a b =>
  decidable_of_iff (a.toList ≤ b.toList) String.le_iff_toList_le.symm

/-- Embedding of Rust `Vec::sort` on rendered strings (src/lib.rs lines 164,
172, 192, 205, 228).  Rust sorts byte-lexicographically on UTF-8, which
coincides with the codepoint-lexicographic order used by Lean's `String`
order.  Sorting under a linear order determines the result uniquely, so the
choice of algorithm is irrelevant. -/
def sortS (l : List String) : List String :=
  @List.insertionSort String (· ≤ ·) strLeDec l

/-- Lookup in an association list modelling `HashMap::get` (src/lib.rs lines
130-131).  In the maps the algorithm builds, the value is a function of the
key, so first-match lookup agrees with `HashMap` last-insert-wins
semantics. -/
def lookupSig [DecidableEq α] (m : List (α × String)) (x : α) : Option String :=
  (m.find? fun p => p.1 = x).map Prod.snd

/-- Embedding of `canonical_properties` (src/lib.rs lines 220-236): render
each pair as `key: value`, `dedup()` (consecutive duplicates only — the Rust
code calls `dedup` BEFORE `sort`), then `sort()`, join with `, `, and wrap in
braces unless empty. -/
def canonical_properties (props : List (String × String)) : String :=
  let rendered := props.map fun kv => kv.1 ++ ": " ++ kv.2
  let deduped := dedupRun rendered
  let sorted := sortS deduped
  let joined := String.intercalate ", " sorted
  if joined = "" then "" else "\x7b " ++ joined ++ " \x7d"

/-- The node signature computed inside `canonical_nodes` (src/lib.rs lines
199-215): labels rendered, `sort()`ed then `dedup()`ed, each prefixed with
`:` and concatenated; then `({labels} {properties})`. -/
def nodeSignature (g : Graph α) (n : α) : String :=
  let sorted_labels :=
    String.join ((dedupRun (sortS (g.node_labels n))).map fun l => ":" ++ l)
  "(" ++ sorted_labels ++ " " ++ canonical_properties (g.node_properties n) ++ ")"

/-- Embedding of `canonical_nodes` (src/lib.rs lines 196-218): the
`HashMap<&NodeId, String>` from each node to its signature, as an
association list in enumeration order. -/
def canonical_nodes (g : Graph α) : List (α × String) :=
  g.nodes.map fun n => (n, nodeSignature g n)

/-- One iteration of the relationship walk in `canonicalize` (src/lib.rs
lines 127-156): a source node taken from `nodes()` together with one element
of its `outgoing_relationships`. -/
structure WalkEvent (α : Type) where
  source : α
  target : α
  relType : String
  props : List (String × String)
deriving DecidableEq

/-- The full relationship walk of src/lib.rs lines 127-156 in order: every
node of `nodes()`, and for each its outgoing relationships. -/
def walkEvents (g : Graph α) : List (WalkEvent α) :=
  g.nodes.flatMap fun s =>
    (g.outgoing_relationships s).map fun r =>
      { source := s, target := r.1.1, relType := r.1.2, props := r.2 }

/-- The body of the walk (src/lib.rs lines 129-154): resolve both endpoint
signatures (`canonical_nodes.get(..).unwrap()`, lines 130-131; `none` models
the panic on a failed lookup) and build the pair of canonical relationship
entries, keyed by the node whose bucket each is pushed into. -/
def relEntry [DecidableEq α] (sigs : List (α × String)) (e : WalkEvent α) :
    Option ((α × String) × (α × String)) :=
  match lookupSig sigs e.source, lookupSig sigs e.target with
  | some cs, some ct =>
      some
        ((e.source,
            "()-[:" ++ e.relType ++ " " ++ canonical_properties e.props ++ "]->" ++ ct),
         (e.target,
            "()<-[:" ++ e.relType ++ " " ++ canonical_properties e.props ++ "]-" ++ cs))
  | _, _ => none

/-- Run a fallible body over a list in order, aborting at the first failure:
the embedding of a Rust loop whose body may panic. -/
def mapOrFail (f : α → Option β) : List α → Option (List β)
  | [] => some []
  | a :: l =>
    match f a with
    | none => none
    | some b => (mapOrFail f l).map fun bs => b :: bs

/-- The whole relationship walk of `canonicalize` (src/lib.rs lines
127-156): all canonical relationship entry pairs, or `none` when some
endpoint lookup panics. -/
def relEntries [DecidableEq α] (g : Graph α) :
    Option (List ((α × String) × (α × String))) :=
  mapOrFail (relEntry (canonical_nodes g)) (walkEvents g)

/-- The bucket of a node in one of the adjacency `HashMap<&NodeId,
Vec<String>>`s (src/lib.rs lines 124-125, 145-154): the `entry(..).push(..)`
calls keyed by `n`, in walk order. -/
def bucket [DecidableEq α] (entries : List (α × String)) (n : α) : List String :=
  (entries.filter fun p => p.1 = n).map Prod.snd

/-- One line of the final matrix (src/lib.rs lines 180-190):
`signature => out: {sorted joined out bucket} in: {sorted joined in bucket}`,
with `unwrap_or_default()` yielding the empty string for an absent bucket. -/
def nodeRecord [DecidableEq α] (g : Graph α)
    (entries : List ((α × String) × (α × String))) (n : α) : String :=
  nodeSignature g n ++ " => out: " ++
    String.intercalate ", " (sortS (bucket (entries.map Prod.fst) n)) ++
    " in: " ++
    String.intercalate ", " (sortS (bucket (entries.map Prod.snd) n))

/-- Embedding of `canonicalize` (src/lib.rs lines 119-194).  `none` models
the Rust panic at a failed endpoint-signature lookup.  The final matrix has
one line per distinct node (`canonical_nodes` is a `HashMap`, so a node
enumerated twice holds a single entry); the lines are sorted and joined with
newlines. -/
def canonicalize [DecidableEq α] (g : Graph α) : Option String :=
  match relEntries g with
  | none => none
  | some entries =>
      some (String.intercalate "\n"
        (sortS (g.nodes.dedup.map fun n => nodeRecord g entries n)))

/-- The effect of a node relabeling on one walk event: both endpoints are
renamed, type and properties are untouched. -/
def mapEvent (e : α ≃ β) (ev : WalkEvent α) : WalkEvent β :=
  { source := e ev.source, target := e ev.target,
    relType := ev.relType, props := ev.props }

/-- Modelled from the spec: the repository's sources contain no
`graphs_equal` operation (only `canonicalize` is defined in src/lib.rs); the
equality checker of spec §4.3/§6 is missing from src/.  Following the
spec's words, it computes `canonicalize` of both graphs — which may be
different concrete representations, hence the two node-identifier types —
and returns whether the two results are identical. -/
def graphs_equal [DecidableEq α] [DecidableEq β]
    (left : Graph α) (right : Graph β) : Bool :=
  decide (canonicalize left = canonicalize right)

/-- A bijective relabeling of node identifiers applied consistently to the
node enumeration and to relationship endpoints, leaving labels, types and
properties untouched (spec §8, renaming invariance). -/
def relabel (g : Graph α) (e : α ≃ β) : Graph β where
  nodes := g.nodes.map e
  node_labels := fun b => g.node_labels (e.symm b)
  node_properties := fun b => g.node_properties (e.symm b)
  outgoing_relationships := fun b =>
    (g.outgoing_relationships (e.symm b)).map fun r => ((e r.1.1, r.1.2), r.2)
  incoming_relationships := fun b =>
    (g.incoming_relationships (e.symm b)).map fun r => ((e r.1.1, r.1.2), r.2)

/-- The contents of one of the adjacency `HashMap<&NodeId, Vec<String>>`s
(src/lib.rs lines 124-125) after the walk: one entry per distinct key, with
its pushed strings in walk order. -/
def adjMap [DecidableEq α] (entries : List (α × String)) : List (α × List String) :=
  (entries.map Prod.fst).dedup.map fun n => (n, bucket entries n)

/-- One write to stderr performed by a `dbg!` invocation inside
`canonicalize`; the payload is the value the Rust code prints (its exact
`Debug` rendering, which includes nondeterministic `HashMap` iteration
order, is abstracted to the value itself). -/
inductive DbgWrite (α : Type) where
  | nodesMap (m : List (α × String))
  | rawAdjacencies (m : List (α × List String))
  | joinedAdjacencies (m : List (α × String))
deriving DecidableEq

/-- The sequence of stderr writes one call of `canonicalize` performs: the
`dbg!` at src/lib.rs line 122 always runs; the four at lines 158-159 and
177-178 run only when the relationship walk completes without panicking. -/
def canonicalizeStderr [DecidableEq α] (g : Graph α) : List (DbgWrite α) :=
  let first := DbgWrite.nodesMap (canonical_nodes g)
  match relEntries g with
  | none => [first]
  | some entries =>
      [first,
       .rawAdjacencies (adjMap (entries.map Prod.fst)),
       .rawAdjacencies (adjMap (entries.map Prod.snd)),
       .joinedAdjacencies ((adjMap (entries.map Prod.fst)).map fun p =>
         (p.1, String.intercalate ", " (sortS p.2))),
       .joinedAdjacencies ((adjMap (entries.map Prod.snd)).map fun p =>
         (p.1, String.intercalate ", " (sortS p.2)))]

/-- A graph whose single relationship points at a target identifier that is
absent from the node enumeration (the malformed-graph scenario of spec §7). -/
def gMissingTarget : Graph Nat where
  nodes := [0]
  node_labels := fun _ => []
  node_properties := fun _ => []
  outgoing_relationships := fun _ => [((1, "T"), [])]
  incoming_relationships := fun _ => []

/-- A single node carrying an exact duplicate property pair adjacently. -/
def gDupProps : Graph Nat where
  nodes := [0]
  node_labels := fun _ => []
  node_properties := fun _ => [("a", "1"), ("a", "1"), ("b", "2")]
  outgoing_relationships := fun _ => []
  incoming_relationships := fun _ => []

/-- The same node with the same property multiset enumerated in a different
order, so that the duplicates are no longer adjacent. -/
def gDupPropsPerm : Graph Nat where
  nodes := [0]
  node_labels := fun _ => []
  node_properties := fun _ => [("a", "1"), ("b", "2"), ("a", "1")]
  outgoing_relationships := fun _ => []
  incoming_relationships := fun _ => []

/-- A graph with a single self-loop relationship. -/
def gLoop : Graph Nat where
  nodes := [0]
  node_labels := fun _ => []
  node_properties := fun _ => []
  outgoing_relationships := fun _ => [((0, "T"), [])]
  incoming_relationships := fun _ => []

/-- Two nodes joined by two parallel relationships whose canonical entries
render to identical strings. -/
def gParallel : Graph Nat where
  nodes := [0, 1]
  node_labels := fun _ => []
  node_properties := fun _ => []
  outgoing_relationships := fun n =>
    if n = 0 then [((1, "T"), []), ((1, "T"), [])] else []
  incoming_relationships := fun _ => []

/-- A single node with no labels, no properties and no relationships. -/
def gIsolated : Graph Nat where
  nodes := [0]
  node_labels := fun _ => []
  node_properties := fun _ => []
  outgoing_relationships := fun _ => []
  incoming_relationships := fun _ => []

/-- A one-edge graph reporting nothing from `incoming_relationships`. -/
def gIncomingA : Graph Nat where
  nodes := [0, 1]
  node_labels := fun _ => []
  node_properties := fun _ => []
  outgoing_relationships := fun n => if n = 0 then [((1, "T"), [])] else []
  incoming_relationships := fun _ => []

/-- The same graph as `gIncomingA` except that `incoming_relationships`
reports arbitrary junk. -/
def gIncomingB : Graph Nat where
  nodes := [0, 1]
  node_labels := fun _ => []
  node_properties := fun _ => []
  outgoing_relationships := fun n => if n = 0 then [((1, "T"), [])] else []
  incoming_relationships := fun _ => [((7, "GARBAGE"), [("x", "1")])]

/-- The graph of the repository's own test `canonical_labels` (src/lib.rs
lines 243-264). -/
def gExample : Graph String where
  nodes := ["a", "b", "c"]
  node_labels := fun n => if n = "a" then ["A"] else if n = "b" then ["B"] else ["C"]
  node_properties := fun n =>
    if n = "a" then [("c", "42"), ("b", "37"), ("a", "13")]
    else if n = "b" then [("bar", "84")]
    else [("baz", "19"), ("boz", "84")]
  outgoing_relationships := fun n =>
    if n = "a" then [(("b", "REL"), [("c", "42"), ("b", "37"), ("a", "13")])]
    else if n = "b" then [(("a", "REL"), [("c", "12")]), (("c", "REL"), [("a", "23")])]
    else []
  incoming_relationships := fun _ => []

section Lemmas

variable {α : Type} {β : Type}

theorem sortS_perm (l : List String) : List.Perm (sortS l) l :=
  @List.perm_insertionSort String (· ≤ ·) strLeDec l

theorem sortS_sorted (l : List String) : List.Sorted (· ≤ ·) (sortS l) :=
  @List.sorted_insertionSort String (· ≤ ·) strLeDec _ _ l

theorem sortS_congr {l₁ l₂ : List String} (h : List.Perm l₁ l₂) : sortS l₁ = sortS l₂ :=
  List.eq_of_perm_of_sorted
    ((sortS_perm l₁).trans (h.trans (sortS_perm l₂).symm))
    (sortS_sorted l₁) (sortS_sorted l₂)

theorem sortS_length (l : List String) : (sortS l).length = l.length :=
  (sortS_perm l).length_eq

theorem lookupSig_map [DecidableEq α] (l : List α) (f : α → String) (x : α) :
    lookupSig (l.map fun n => (n, f n)) x = if x ∈ l then some (f x) else none := by
  induction l with
  | nil => simp [lookupSig]
  | cons a l ih =>
    by_cases h : a = x
    · subst h
      simp only [lookupSig, List.map_cons]
      rw [List.find?_cons_of_pos _ (by simp)]
      simp
    · simp only [lookupSig, List.map_cons]
      rw [List.find?_cons_of_neg _ (by simp [h])]
      simp only [lookupSig] at ih
      rw [ih]
      simp [h, Ne.symm h]

theorem lookupSig_canonical_nodes [DecidableEq α] (g : Graph α) (x : α) :
    lookupSig (canonical_nodes g) x
      = if x ∈ g.nodes then some (nodeSignature g x) else none :=
  lookupSig_map g.nodes (nodeSignature g) x

theorem source_mem_of_walk {g : Graph α} {e : WalkEvent α}
    (h : e ∈ walkEvents g) : e.source ∈ g.nodes := by
  simp only [walkEvents, List.mem_flatMap, List.mem_map] at h
  obtain ⟨s, hs, r, _, rfl⟩ := h
  exact hs

theorem relEntry_eq_none_iff [DecidableEq α] {g : Graph α} {e : WalkEvent α}
    (hs : e.source ∈ g.nodes) :
    relEntry (canonical_nodes g) e = none ↔ e.target ∉ g.nodes := by
  by_cases ht : e.target ∈ g.nodes <;>
    simp [relEntry, lookupSig_canonical_nodes, hs, ht]

theorem relEntry_keys [DecidableEq α] {sigs : List (α × String)} {e : WalkEvent α}
    {p : (α × String) × (α × String)} (h : relEntry sigs e = some p) :
    p.1.1 = e.source ∧ p.2.1 = e.target := by
  unfold relEntry at h
  cases h1 : lookupSig sigs e.source <;> cases h2 : lookupSig sigs e.target <;>
    rw [h1, h2] at h <;> simp at h
  obtain ⟨rfl, rfl⟩ := h
  exact ⟨rfl, rfl⟩

theorem mapOrFail_eq_none_iff (f : α → Option β) (l : List α) :
    mapOrFail f l = none ↔ ∃ a ∈ l, f a = none := by
  induction l with
  | nil => simp [mapOrFail]
  | cons a l ih =>
    cases h : f a with
    | none => simp [mapOrFail, h]
    | some b => simp [mapOrFail, h, ih]

theorem mapOrFail_forall2 {f : α → Option β} :
    ∀ {l : List α} {bs : List β}, mapOrFail f l = some bs →
      List.Forall₂ (fun a b => f a = some b) l bs := by
  intro l
  induction l with
  | nil =>
    intro bs h
    simp only [mapOrFail, Option.some.injEq] at h
    subst h
    exact List.Forall₂.nil
  | cons a l ih =>
    intro bs h
    cases h1 : f a with
    | none => rw [mapOrFail, h1] at h; exact absurd h (by simp)
    | some b =>
      rw [mapOrFail, h1] at h
      cases h2 : mapOrFail f l with
      | none => rw [h2] at h; exact absurd h (by simp)
      | some bs0 =>
        rw [h2] at h
        have h3 : b :: bs0 = bs := by simpa using h
        subst h3
        exact List.Forall₂.cons h1 (ih h2)

theorem bucket_counts [DecidableEq α] {evs : List (WalkEvent α)}
    {ents : List ((α × String) × (α × String))}
    (h : List.Forall₂ (fun ev p => p.1.1 = ev.source ∧ p.2.1 = ev.target) evs ents)
    (n : α) :
    (bucket (ents.map Prod.fst) n).length = evs.countP (fun e => e.source = n) ∧
    (bucket (ents.map Prod.snd) n).length = evs.countP (fun e => e.target = n) := by
  induction h with
  | nil => simp [bucket]
  | @cons ev p evs tailents hk _ ih =>
    obtain ⟨h1, h2⟩ := hk
    constructor
    · rcases ih with ⟨ih1, _⟩
      simp only [bucket, List.map_cons, List.filter_cons, List.countP_cons]
      by_cases hc : ev.source = n
      · rw [if_pos (by simp [h1, hc]), if_pos (by simp [hc])]
        simp only [bucket] at ih1
        simp [ih1]
      · rw [if_neg (by simp [h1, hc]), if_neg (by simp [hc])]
        simpa [bucket] using ih1
    · rcases ih with ⟨_, ih2⟩
      simp only [bucket, List.map_cons, List.filter_cons, List.countP_cons]
      by_cases hc : ev.target = n
      · rw [if_pos (by simp [h2, hc]), if_pos (by simp [hc])]
        simp only [bucket] at ih2
        simp [ih2]
      · rw [if_neg (by simp [h2, hc]), if_neg (by simp [hc])]
        simpa [bucket] using ih2

theorem relEntries_forall2 [DecidableEq α] {g : Graph α}
    {ents : List ((α × String) × (α × String))} (h : relEntries g = some ents) :
    List.Forall₂ (fun ev p => p.1.1 = ev.source ∧ p.2.1 = ev.target)
      (walkEvents g) ents :=
  (mapOrFail_forall2 h).imp fun _ _ hfe => relEntry_keys hfe

theorem relEntries_eq_none_iff [DecidableEq α] {g : Graph α} :
    relEntries g = none ↔ ∃ e ∈ walkEvents g, e.target ∉ g.nodes := by
  rw [relEntries, mapOrFail_eq_none_iff]
  constructor
  · rintro ⟨e, he, hn⟩
    exact ⟨e, he, (relEntry_eq_none_iff (source_mem_of_walk he)).mp hn⟩
  · rintro ⟨e, he, hn⟩
    exact ⟨e, he, (relEntry_eq_none_iff (source_mem_of_walk he)).mpr hn⟩

theorem canonicalize_none_iff [DecidableEq α] {g : Graph α} :
    canonicalize g = none ↔ ∃ e ∈ walkEvents g, e.target ∉ g.nodes := by
  rw [← relEntries_eq_none_iff]
  cases h : relEntries g <;> simp [canonicalize, h]

theorem nodeSignature_relabel (g : Graph α) (e : α ≃ β) (b : β) :
    nodeSignature (relabel g e) b = nodeSignature g (e.symm b) := rfl

theorem walkEvents_relabel (g : Graph α) (e : α ≃ β) :
    walkEvents (relabel g e) = (walkEvents g).map (mapEvent e) := by
  simp only [walkEvents, relabel, List.flatMap_map, List.map_flatMap,
    Equiv.symm_apply_apply, List.map_map]
  rfl

theorem lookupSig_relabel [DecidableEq α] [DecidableEq β]
    (g : Graph α) (e : α ≃ β) (x : α) :
    lookupSig (canonical_nodes (relabel g e)) (e x)
      = lookupSig (canonical_nodes g) x := by
  rw [lookupSig_canonical_nodes, lookupSig_canonical_nodes]
  by_cases h : x ∈ g.nodes
  · have h' : e x ∈ (relabel g e).nodes := by simp [relabel, h]
    rw [if_pos h', if_pos h, nodeSignature_relabel, Equiv.symm_apply_apply]
  · have h' : e x ∉ (relabel g e).nodes := by simp [relabel, h]
    rw [if_neg h', if_neg h]

theorem relEntry_relabel [DecidableEq α] [DecidableEq β]
    (g : Graph α) (e : α ≃ β) (ev : WalkEvent α) :
    relEntry (canonical_nodes (relabel g e)) (mapEvent e ev)
      = (relEntry (canonical_nodes g) ev).map fun p =>
          ((e p.1.1, p.1.2), (e p.2.1, p.2.2)) := by
  unfold relEntry
  rw [show (mapEvent e ev).source = e ev.source from rfl]
  rw [show (mapEvent e ev).target = e ev.target from rfl]
  rw [lookupSig_relabel, lookupSig_relabel]
  cases lookupSig (canonical_nodes g) ev.source <;>
    cases lookupSig (canonical_nodes g) ev.target <;> rfl

theorem mapOrFail_map (f : β → Option γ) (h : α → β) (l : List α) :
    mapOrFail f (l.map h) = mapOrFail (fun a => f (h a)) l := by
  induction l with
  | nil => rfl
  | cons a l ih => simp [mapOrFail, ih]

theorem mapOrFail_congr {f f' : α → Option β} {l : List α}
    (h : ∀ a ∈ l, f a = f' a) : mapOrFail f l = mapOrFail f' l := by
  induction l with
  | nil => rfl
  | cons a l ih =>
    simp only [mapOrFail, h a (by simp)]
    rw [ih fun a ha => h a (by simp [ha])]

theorem mapOrFail_opt_map (u : β → γ) (f : α → Option β) (l : List α) :
    mapOrFail (fun a => (f a).map u) l = (mapOrFail f l).map (List.map u) := by
  induction l with
  | nil => rfl
  | cons a l ih =>
    cases hf : f a with
    | none => simp [mapOrFail, hf]
    | some b =>
      simp only [mapOrFail, hf, Option.map_some']
      rw [ih]
      cases mapOrFail f l <;> rfl

theorem relEntries_relabel [DecidableEq α] [DecidableEq β]
    (g : Graph α) (e : α ≃ β) :
    relEntries (relabel g e)
      = (relEntries g).map (List.map fun p => ((e p.1.1, p.1.2), (e p.2.1, p.2.2))) := by
  rw [relEntries, walkEvents_relabel, mapOrFail_map]
  rw [mapOrFail_congr fun ev _ => relEntry_relabel g e ev]
  rw [mapOrFail_opt_map]
  rfl

theorem bucket_map_inj [DecidableEq α] [DecidableEq β] {f : α → β}
    (hf : Function.Injective f) (l : List (α × String)) (n : α) :
    bucket (l.map fun p => (f p.1, p.2)) (f n) = bucket l n := by
  induction l with
  | nil => rfl
  | cons p l ih =>
    simp only [bucket, List.map_cons, List.filter_cons] at ih ⊢
    by_cases hc : p.1 = n
    · rw [if_pos (by simp [hc]), if_pos (by simp [hc])]
      simpa using ih
    · rw [if_neg (by simp [hf.eq_iff, hc]), if_neg (by simp [hc])]
      exact ih

theorem nodeRecord_relabel [DecidableEq α] [DecidableEq β]
    (g : Graph α) (e : α ≃ β)
    (ents : List ((α × String) × (α × String))) (n : α) :
    nodeRecord (relabel g e)
        (ents.map fun p => ((e p.1.1, p.1.2), (e p.2.1, p.2.2))) (e n)
      = nodeRecord g ents n := by
  unfold nodeRecord
  rw [nodeSignature_relabel, Equiv.symm_apply_apply]
  have h1 : ((ents.map fun p => ((e p.1.1, p.1.2), (e p.2.1, p.2.2))).map Prod.fst)
      = (ents.map Prod.fst).map fun p => (e p.1, p.2) := by
    simp [List.map_map]
  have h2 : ((ents.map fun p => ((e p.1.1, p.1.2), (e p.2.1, p.2.2))).map Prod.snd)
      = (ents.map Prod.snd).map fun p => (e p.1, p.2) := by
    simp [List.map_map]
  rw [h1, h2, bucket_map_inj e.injective, bucket_map_inj e.injective]

theorem canonicalize_eq_some [DecidableEq α] {g : Graph α}
    {ents : List ((α × String) × (α × String))} (h : relEntries g = some ents) :
    canonicalize g
      = some (String.intercalate "\n"
          (sortS (g.nodes.dedup.map fun n => nodeRecord g ents n))) := by
  unfold canonicalize
  rw [h]

theorem canonicalize_isSome [DecidableEq α] {g : Graph α}
    (h : ∀ e ∈ walkEvents g, e.target ∈ g.nodes) :
    (canonicalize g).isSome = true := by
  cases hr : relEntries g with
  | none =>
    obtain ⟨e, he, hn⟩ := relEntries_eq_none_iff.mp hr
    exact absurd (h e he) hn
  | some ents => rw [canonicalize_eq_some hr]; rfl

end Lemmas

section Claims

variable {α : Type} {β : Type}

set_option maxRecDepth 80000 in
/-- Validation of the embedding against the repository's own test
`canonical_labels` (src/lib.rs lines 243-264): the embedded `canonicalize`
reproduces the expected canonical form character for character. -/
theorem canonicalize_reference_example :
    canonicalize gExample = some
      ("(:A \x7b a: 13, b: 37, c: 42 \x7d) => out: ()-[:REL \x7b a: 13, b: 37, c: 42 \x7d]->(:B \x7b bar: 84 \x7d) in: ()<-[:REL \x7b c: 12 \x7d]-(:B \x7b bar: 84 \x7d)\n" ++
       "(:B \x7b bar: 84 \x7d) => out: ()-[:REL \x7b a: 23 \x7d]->(:C \x7b baz: 19, boz: 84 \x7d), ()-[:REL \x7b c: 12 \x7d]->(:A \x7b a: 13, b: 37, c: 42 \x7d) in: ()<-[:REL \x7b a: 13, b: 37, c: 42 \x7d]-(:A \x7b a: 13, b: 37, c: 42 \x7d)\n" ++
       "(:C \x7b baz: 19, boz: 84 \x7d) => out:  in: ()<-[:REL \x7b a: 23 \x7d]-(:B \x7b bar: 84 \x7d)") := by
  decide

/-- Claim C1, amended.  The canonicalization of src/lib.rs has no explicit
error value at all: when a walked relationship's target identifier has no
corresponding node in the enumeration, the `canonical_nodes.get(..).unwrap()`
at src/lib.rs line 131 panics, aborting the process (modelled as `none`), and
this failed endpoint lookup is the only failure condition of `canonicalize`.
A relationship whose source identifier is absent from the enumeration is
never walked at all (the walk only visits enumerated nodes), so it triggers
no failure. -/
theorem canonicalize_abort_characterization [DecidableEq α] (g : Graph α) :
    (canonicalize g = none ↔ ∃ e ∈ walkEvents g, e.target ∉ g.nodes) ∧
    ∀ e ∈ walkEvents g, e.source ∈ g.nodes :=
  ⟨canonicalize_none_iff, fun _ he => source_mem_of_walk he⟩

/-- Counterexample to claim C1 as stated: on the concrete graph whose only
relationship points at the absent node identifier 1, canonicalization aborts
(the Rust code panics at the failed signature lookup; `none` models the
abort) instead of surfacing any explicit `NodeNotFound` failure result — the
sources define no error type whatsoever and `canonicalize` returns a plain
`String`. -/
theorem canonicalize_dangling_target_aborts :
    canonicalize gMissingTarget = none := by decide

/-- Claim C2 (spec-modelled, the equality checker is absent from src/):
`graphs_equal` returns `true` exactly when the canonical forms of the two
graphs — which may live over different node-identifier types — are
identical. -/
theorem graphs_equal_iff_canonical_eq [DecidableEq α] [DecidableEq β]
    (left : Graph α) (right : Graph β) :
    graphs_equal left right = true ↔ canonicalize left = canonicalize right := by
  simp [graphs_equal]

/-- Claim C3, the code's actual behaviour at the failing input.
`canonical_properties` calls `Vec::dedup` BEFORE `Vec::sort` (src/lib.rs
lines 227-228), so only adjacent duplicate rendered entries collapse: with
the duplicate `b: 2` at non-adjacent positions both copies survive into the
sorted block, while the same multiset with the duplicates adjacent
collapses.  (The label path at lines 205-206 sorts before dedupping, which
does collapse all duplicates.) -/
theorem canonical_properties_keeps_nonadjacent_duplicates :
    canonical_properties [("b", "2"), ("a", "1"), ("b", "2")]
        = "\x7b a: 1, b: 2, b: 2 \x7d" ∧
    canonical_properties [("b", "2"), ("b", "2"), ("a", "1")]
        = "\x7b a: 1, b: 2 \x7d" := by decide

/-- Claim C4.  Renaming invariance: applying a bijective relabeling of node
identifiers consistently to the node enumeration and to relationship
endpoints leaves `canonicalize` unchanged (including the aborting case). -/
theorem canonicalize_renaming_invariant [DecidableEq α] [DecidableEq β]
    (g : Graph α) (e : α ≃ β) :
    canonicalize (relabel g e) = canonicalize g := by
  cases h : relEntries g with
  | none =>
    have h1 : relEntries (relabel g e) = none := by
      rw [relEntries_relabel, h]; rfl
    unfold canonicalize
    rw [h, h1]
  | some ents =>
    have h1 : relEntries (relabel g e)
        = some (ents.map fun p => ((e p.1.1, p.1.2), (e p.2.1, p.2.2))) := by
      rw [relEntries_relabel, h]; rfl
    rw [canonicalize_eq_some h, canonicalize_eq_some h1]
    refine congrArg some (congrArg (String.intercalate "\n") (congrArg sortS ?_))
    have hnodes : (relabel g e).nodes.dedup = g.nodes.dedup.map e := by
      show (g.nodes.map e).dedup = g.nodes.dedup.map e
      exact List.dedup_map_of_injective e.injective g.nodes
    rw [hnodes, List.map_map]
    exact List.map_congr_left fun n _ => nodeRecord_relabel g e ents n

/-- Claim C5, the code's actual behaviour at the failing input.  Permuting a
node's property enumeration can change the canonical form: `gDupProps` and
`gDupPropsPerm` agree on everything except the order of the same property
multiset, yet canonicalize differently, because `Vec::dedup` runs before
`Vec::sort` in `canonical_properties` and only collapses the adjacent
arrangement of the duplicate pair. -/
theorem canonicalize_property_order_sensitive :
    List.Perm (gDupProps.node_properties 0) (gDupPropsPerm.node_properties 0) ∧
    gDupProps.nodes = gDupPropsPerm.nodes ∧
    gDupProps.node_labels 0 = gDupPropsPerm.node_labels 0 ∧
    gDupProps.outgoing_relationships 0 = gDupPropsPerm.outgoing_relationships 0 ∧
    canonicalize gDupProps ≠ canonicalize gDupPropsPerm := by decide

/-- Claim C6.  Every walked relationship contributes exactly one canonical
relationship entry to its source node's outgoing bucket and exactly one to
its target node's incoming bucket: the bucket of node `n` has exactly as
many entries as there are walked relationships with source (resp. target)
`n`.  For a self-loop, whose source and target are the same node `n`, this
puts exactly one entry in `n`'s outgoing bucket and one in `n`'s incoming
bucket per self-loop. -/
theorem self_loop_bucket_entries [DecidableEq α] (g : Graph α)
    (ents : List ((α × String) × (α × String)))
    (h : relEntries g = some ents) (n : α) :
    (bucket (ents.map Prod.fst) n).length
        = (walkEvents g).countP (fun e => e.source = n) ∧
    (bucket (ents.map Prod.snd) n).length
        = (walkEvents g).countP (fun e => e.target = n) :=
  bucket_counts (relEntries_forall2 h) n

/-- Witness for claim C6 at the concrete one-node self-loop graph `gLoop`:
its single self-loop yields exactly one outgoing and one incoming bucket
entry at node 0. -/
theorem self_loop_bucket_entries_witness :
    (bucket (([((0, "()-[:T ]->( )"), (0, "()<-[:T ]-( )"))] :
          List ((Nat × String) × (Nat × String))).map Prod.fst) 0).length
        = (walkEvents gLoop).countP (fun e => e.source = 0) ∧
    (bucket (([((0, "()-[:T ]->( )"), (0, "()<-[:T ]-( )"))] :
          List ((Nat × String) × (Nat × String))).map Prod.snd) 0).length
        = (walkEvents gLoop).countP (fun e => e.target = 0) :=
  self_loop_bucket_entries gLoop
    [((0, "()-[:T ]->( )"), (0, "()<-[:T ]-( )"))] (by decide) 0

/-- Claim C7.  No deduplication happens at the relationship-entry level: the
sorted bucket that is joined into a node's record is a permutation of the
raw bucket (so identical rendered strings all survive), and its length
equals the number of walked relationships attributed to the node, preserving
multiset cardinality. -/
theorem sorted_buckets_preserve_multiplicity [DecidableEq α] (g : Graph α)
    (ents : List ((α × String) × (α × String)))
    (h : relEntries g = some ents) (n : α) :
    List.Perm (sortS (bucket (ents.map Prod.fst) n)) (bucket (ents.map Prod.fst) n) ∧
    List.Perm (sortS (bucket (ents.map Prod.snd) n)) (bucket (ents.map Prod.snd) n) ∧
    (sortS (bucket (ents.map Prod.fst) n)).length
        = (walkEvents g).countP (fun e => e.source = n) ∧
    (sortS (bucket (ents.map Prod.snd) n)).length
        = (walkEvents g).countP (fun e => e.target = n) := by
  obtain ⟨h1, h2⟩ := bucket_counts (relEntries_forall2 h) n
  exact ⟨sortS_perm _, sortS_perm _, by rw [sortS_length]; exact h1,
    by rw [sortS_length]; exact h2⟩

/-- Witness for claim C7 at the concrete graph `gParallel`, whose two
parallel relationships render to identical strings: both copies survive
sorting, so node 1's incoming side counts two entries. -/
theorem sorted_buckets_preserve_multiplicity_witness :
    List.Perm (sortS (bucket (([((0, "()-[:T ]->( )"), (1, "()<-[:T ]-( )")),
          ((0, "()-[:T ]->( )"), (1, "()<-[:T ]-( )"))] :
          List ((Nat × String) × (Nat × String))).map Prod.fst) 1))
        (bucket (([((0, "()-[:T ]->( )"), (1, "()<-[:T ]-( )")),
          ((0, "()-[:T ]->( )"), (1, "()<-[:T ]-( )"))] :
          List ((Nat × String) × (Nat × String))).map Prod.fst) 1) ∧
    List.Perm (sortS (bucket (([((0, "()-[:T ]->( )"), (1, "()<-[:T ]-( )")),
          ((0, "()-[:T ]->( )"), (1, "()<-[:T ]-( )"))] :
          List ((Nat × String) × (Nat × String))).map Prod.snd) 1))
        (bucket (([((0, "()-[:T ]->( )"), (1, "()<-[:T ]-( )")),
          ((0, "()-[:T ]->( )"), (1, "()<-[:T ]-( )"))] :
          List ((Nat × String) × (Nat × String))).map Prod.snd) 1) ∧
    (sortS (bucket (([((0, "()-[:T ]->( )"), (1, "()<-[:T ]-( )")),
          ((0, "()-[:T ]->( )"), (1, "()<-[:T ]-( )"))] :
          List ((Nat × String) × (Nat × String))).map Prod.fst) 1)).length
        = (walkEvents gParallel).countP (fun e => e.source = 1) ∧
    (sortS (bucket (([((0, "()-[:T ]->( )"), (1, "()<-[:T ]-( )")),
          ((0, "()-[:T ]->( )"), (1, "()<-[:T ]-( )"))] :
          List ((Nat × String) × (Nat × String))).map Prod.snd) 1)).length
        = (walkEvents gParallel).countP (fun e => e.target = 1) :=
  sorted_buckets_preserve_multiplicity gParallel
    [((0, "()-[:T ]->( )"), (1, "()<-[:T ]-( )")),
     ((0, "()-[:T ]->( )"), (1, "()<-[:T ]-( )"))] (by decide) 1

/-- Showcase of claim C7 end to end: the canonical form of `gParallel` keeps
both identical parallel-edge entries in the joined bucket strings. -/
theorem parallel_duplicates_both_rendered :
    canonicalize gParallel = some
      ("( ) => out:  in: ()<-[:T ]-( ), ()<-[:T ]-( )\n" ++
       "( ) => out: ()-[:T ]->( ), ()-[:T ]->( ) in: ") := by decide

/-- Claim C8.  On well-formed input (every walked relationship's target is
enumerated) canonicalization is total, and the empty cases render to the
empty-string forms: an empty property mapping renders without braces as "",
a node with no labels and no properties gets signature "( )", and a node
with empty buckets gets the record `signature => out:  in: ` with empty
joined lists. -/
theorem empty_cases_total [DecidableEq α] (g : Graph α)
    (h : ∀ e ∈ walkEvents g, e.target ∈ g.nodes) :
    (canonicalize g).isSome = true ∧
    canonical_properties [] = "" ∧
    (∀ n, g.node_labels n = [] → g.node_properties n = [] →
      nodeSignature g n = "( )") ∧
    ∀ ents n, relEntries g = some ents →
      bucket (ents.map Prod.fst) n = [] → bucket (ents.map Prod.snd) n = [] →
      nodeRecord g ents n = nodeSignature g n ++ " => out:  in: " := by
  refine ⟨canonicalize_isSome h, rfl, ?_, ?_⟩
  · intro n h1 h2
    unfold nodeSignature
    rw [h1, h2]
    rfl
  · intro ents n _ hb1 hb2
    unfold nodeRecord
    rw [hb1, hb2]
    show nodeSignature g n ++ " => out: " ++ "" ++ " in: " ++ ""
        = nodeSignature g n ++ " => out:  in: "
    simp [String.append_empty, String.append_assoc]

/-- Witness for claim C8 at the concrete graph `gIsolated` (one node, no
labels, no properties, no relationships). -/
theorem empty_cases_total_witness :
    (canonicalize gIsolated).isSome = true ∧
    canonical_properties [] = "" ∧
    (∀ n, gIsolated.node_labels n = [] → gIsolated.node_properties n = [] →
      nodeSignature gIsolated n = "( )") ∧
    ∀ ents n, relEntries gIsolated = some ents →
      bucket (ents.map Prod.fst) n = [] → bucket (ents.map Prod.snd) n = [] →
      nodeRecord gIsolated ents n = nodeSignature gIsolated n ++ " => out:  in: " :=
  empty_cases_total gIsolated (by decide)

/-- Claim C9, the code's actual behaviour: every call of `canonicalize`
performs stderr writes — the `dbg!` at src/lib.rs line 122 prints the
signature map before the walk even starts (and lines 158-159 and 177-178
print the adjacency maps when the walk completes), so the trace is never
empty and starts with the signature-map write. -/
theorem canonicalize_writes_stderr [DecidableEq α] (g : Graph α) :
    canonicalizeStderr g ≠ [] ∧
    (canonicalizeStderr g).head?
      = some (DbgWrite.nodesMap (canonical_nodes g)) := by
  unfold canonicalizeStderr
  cases relEntries g <;> simp

/-- Claim C10.  `canonicalize` never consults `incoming_relationships`:
two graphs agreeing on the node enumeration, labels, properties and outgoing
relationships canonicalize identically however much their
`incoming_relationships` reports differ. -/
theorem canonicalize_ignores_incoming [DecidableEq α] (g₁ g₂ : Graph α)
    (hn : g₁.nodes = g₂.nodes)
    (hl : g₁.node_labels = g₂.node_labels)
    (hp : g₁.node_properties = g₂.node_properties)
    (ho : g₁.outgoing_relationships = g₂.outgoing_relationships) :
    canonicalize g₁ = canonicalize g₂ := by
  cases g₁ with
  | mk n1 l1 p1 o1 i1 =>
    cases g₂ with
    | mk n2 l2 p2 o2 i2 =>
      dsimp only at hn hl hp ho
      subst hn; subst hl; subst hp; subst ho
      rfl

/-- Witness for claim C10: `gIncomingA` and `gIncomingB` differ only in what
`incoming_relationships` reports, and canonicalize identically. -/
theorem canonicalize_ignores_incoming_witness :
    canonicalize gIncomingA = canonicalize gIncomingB :=
  canonicalize_ignores_incoming gIncomingA gIncomingB rfl rfl rfl rfl

end Claims

end AssertGraphIso
